import Mathlib

/-!
Shallow embedding of the tailhoogram webhook relay (Python, FastAPI) in Lean 4.

Conventions of the embedding:
* Python `str` values are modelled as `List Char`; Python `bytes` as `List Nat`
  (each element a byte value).  Header and signature material in this program is
  ASCII, so `.encode("utf-8")` is modelled as `Char.toNat` per character.
* Machine integers do not occur: Python integers are arbitrary precision and are
  modelled as `Int`/`Nat`.  SHA-256 words are `Nat` reduced modulo `2^32`.
* `time.time()` is modelled by an explicit `now : Int` argument.
* Fallible operations return `Option`; a Python exception caught by the code is
  the `none` case of the corresponding `Option`.
-/

/-! ### Python string primitives used by `security.py` -/

/-- Python `str.split(sep)` for a single-character separator: splitting the
empty string yields `[""]`, and separators at the ends yield empty fields. -/
def splitOnChar (sep : Char) : List Char → List (List Char)
  | [] => [[]]
  | c :: cs =>
    if c = sep then [] :: splitOnChar sep cs
    else
      match splitOnChar sep cs with
      | [] => [[c]]
      | g :: gs => (c :: g) :: gs

/-- Python `str.startswith(pre)`. -/
def hasPre : List Char → List Char → Bool
  | [], _ => true
  | _ :: _, [] => false
  | p :: ps, c :: cs => p == c && hasPre ps cs

/-- Python `str.lstrip()` (ASCII whitespace). -/
def lstrip (l : List Char) : List Char := l.dropWhile Char.isWhitespace

/-- Python `str.rstrip()` (ASCII whitespace). -/
def rstrip (l : List Char) : List Char := (l.reverse.dropWhile Char.isWhitespace).reverse

/-- Numeric value of an ASCII digit character. -/
def digitVal (c : Char) : Nat := c.toNat - 48

/-- Run of decimal digits as accepted by Python `int()`: single underscores are
permitted between digits (`1_0`), never leading, trailing or doubled. -/
def digitsRun : Nat → List Char → Option Nat
  | acc, [] => some acc
  | acc, c :: cs =>
    if c.isDigit then digitsRun (acc * 10 + digitVal c) cs
    else if c = '_' then
      match cs with
      | [] => none
      | d :: cs2 => if d.isDigit then digitsRun (acc * 10 + digitVal d) cs2 else none
    else none

/-- Nonempty digit run (Python `int()` body, after sign). -/
def parseDigitsU : List Char → Option Nat
  | [] => none
  | c :: cs => if c.isDigit then digitsRun (digitVal c) cs else none

/-- Sign handling of Python `int(s)`, after whitespace stripping: an optional
single `+`/`-`, then a digit run. -/
def pyIntBody : List Char → Option Int
  | [] => none
  | c :: rest =>
    if c = '+' then (parseDigitsU rest).map Int.ofNat
    else if c = '-' then (parseDigitsU rest).map fun n => -(Int.ofNat n)
    else (parseDigitsU (c :: rest)).map Int.ofNat

/-- Python `int(s)` restricted to ASCII input: optional surrounding whitespace,
an optional single `+`/`-` sign, then a digit run with optional underscores.
`none` models the `ValueError` raised by `int()`. -/
def pyIntOfChars (l : List Char) : Option Int :=
  pyIntBody (rstrip (lstrip l))

/-- ASCII digit character for `n < 10` (used by the model of Python `str(int)`). -/
def digitChar : Nat → Char
  | 0 => '0'
  | 1 => '1'
  | 2 => '2'
  | 3 => '3'
  | 4 => '4'
  | 5 => '5'
  | 6 => '6'
  | 7 => '7'
  | 8 => '8'
  | 9 => '9'
  | _ => '*'

/-- Decimal rendering of a natural number, as Python `str` renders nonnegative
integers. -/
def natStr (n : Nat) : List Char :=
  if _h : n < 10 then [digitChar n]
  else natStr (n / 10) ++ [digitChar (n % 10)]
termination_by n
decreasing_by exact Nat.div_lt_self (by omega) (by omega)

/-- Python `str(z)` for an integer `z` (`f"{timestamp}"` in the source). -/
def intStr (z : Int) : List Char :=
  if z < 0 then '-' :: natStr (-z).toNat else natStr z.toNat

/-- Python `str.encode("utf-8")` restricted to ASCII content. -/
def asciiBytes (l : List Char) : List Nat := l.map Char.toNat

/-! ### SHA-256 and HMAC (hashlib / hmac), words as `Nat` mod `2^32` -/

/-- Reduce to a 32-bit word. -/
def w32 (n : Nat) : Nat := n % 4294967296

/-- Right rotation of a 32-bit word. -/
def rotr (s x : Nat) : Nat := w32 ((x >>> s) ||| (x <<< (32 - s)))

/-- SHA-256 Ch function. -/
def chf (e f g : Nat) : Nat := (e &&& f) ^^^ ((e ^^^ 4294967295) &&& g)

/-- SHA-256 Maj function. -/
def majf (a b c : Nat) : Nat := (a &&& b) ^^^ (a &&& c) ^^^ (b &&& c)

/-- SHA-256 big sigma 0. -/
def bsig0 (x : Nat) : Nat := rotr 2 x ^^^ rotr 13 x ^^^ rotr 22 x

/-- SHA-256 big sigma 1. -/
def bsig1 (x : Nat) : Nat := rotr 6 x ^^^ rotr 11 x ^^^ rotr 25 x

/-- SHA-256 small sigma 0. -/
def ssig0 (x : Nat) : Nat := rotr 7 x ^^^ rotr 18 x ^^^ (x >>> 3)

/-- SHA-256 small sigma 1. -/
def ssig1 (x : Nat) : Nat := rotr 17 x ^^^ rotr 19 x ^^^ (x >>> 10)

/-- SHA-256 round constants (decimal). -/
def shaK : List Nat :=
  [1116352408, 1899447441, 3049323471, 3921009573, 961987163,
   1508970993, 2453635748, 2870763221, 3624381080, 310598401,
   607225278, 1426881987, 1925078388, 2162078206, 2614888103,
   3248222580, 3835390401, 4022224774, 264347078, 604807628,
   770255983, 1249150122, 1555081692, 1996064986, 2554220882,
   2821834349, 2952996808, 3210313671, 3336571891, 3584528711,
   113926993, 338241895, 666307205, 773529912, 1294757372,
   1396182291, 1695183700, 1986661051, 2177026350, 2456956037,
   2730485921, 2820302411, 3259730800, 3345764771, 3516065817,
   3600352804, 4094571909, 275423344, 430227734, 506948616,
   659060556, 883997877, 958139571, 1322822218, 1537002063,
   1747873779, 1955562222, 2024104815, 2227730452, 2361852424,
   2428436474, 2756734187, 3204031479, 3329325298]

/-- Big-endian 4-byte grouping into 32-bit words. -/
def bytesToWords : List Nat → List Nat
  | b0 :: b1 :: b2 :: b3 :: rest =>
    (((b0 * 256 + b1) * 256 + b2) * 256 + b3) :: bytesToWords rest
  | _ => []

/-- Big-endian bytes of a 32-bit word. -/
def wordBytes (w : Nat) : List Nat :=
  [w / 16777216 % 256, w / 65536 % 256, w / 256 % 256, w % 256]

/-- Big-endian 8-byte length field of the SHA-256 padding. -/
def lengthBytes64 (n : Nat) : List Nat :=
  [n / 72057594037927936 % 256, n / 281474976710656 % 256,
   n / 1099511627776 % 256, n / 4294967296 % 256,
   n / 16777216 % 256, n / 65536 % 256, n / 256 % 256, n % 256]

/-- SHA-256 message padding: a `0x80` byte, zeros, then the bit length,
reaching a multiple of 64 bytes. -/
def shaPad (msg : List Nat) : List Nat :=
  let L := msg.length
  let zeros := (64 - (L + 9) % 64) % 64
  msg ++ [128] ++ List.replicate zeros 0 ++ lengthBytes64 (L * 8)

/-- Split a byte list into 64-byte blocks. -/
def chunk64 : List Nat → List (List Nat)
  | [] => []
  | a :: rest => (a :: rest.take 63) :: chunk64 (rest.drop 63)
termination_by l => l.length
decreasing_by simp only [List.length_drop, List.length_cons]; omega

/-- Extend a 16-word block, one schedule word per step. -/
def scheduleExt (w : List Nat) : Nat → List Nat
  | 0 => w
  | k + 1 =>
    let w2 := scheduleExt w k
    let i := w2.length
    w2 ++ [w32 (ssig1 (w2.getD (i - 2) 0) + w2.getD (i - 7) 0 +
                ssig0 (w2.getD (i - 15) 0) + w2.getD (i - 16) 0)]

/-- The 64-word message schedule of a block. -/
def schedule (block : List Nat) : List Nat := scheduleExt block 48

/-- SHA-256 working state. -/
structure Hash8 where
  a : Nat
  b : Nat
  c : Nat
  d : Nat
  e : Nat
  f : Nat
  g : Nat
  h : Nat

/-- One SHA-256 round. -/
def compressStep (st : Hash8) (kw : Nat × Nat) : Hash8 :=
  let t1 := w32 (st.h + bsig1 st.e + chf st.e st.f st.g + kw.1 + kw.2)
  let t2 := w32 (bsig0 st.a + majf st.a st.b st.c)
  ⟨w32 (t1 + t2), st.a, st.b, st.c, w32 (st.d + t1), st.e, st.f, st.g⟩

/-- Compression of one 16-word block into the running hash. -/
def compressBlock (h : Hash8) (block : List Nat) : Hash8 :=
  let st := (shaK.zip (schedule block)).foldl compressStep h
  ⟨w32 (h.a + st.a), w32 (h.b + st.b), w32 (h.c + st.c), w32 (h.d + st.d),
   w32 (h.e + st.e), w32 (h.f + st.f), w32 (h.g + st.g), w32 (h.h + st.h)⟩

/-- SHA-256 of a byte string, as 32 bytes (`hashlib.sha256(...).digest()`). -/
def sha256 (msg : List Nat) : List Nat :=
  let final := (chunk64 (shaPad msg)).foldl
    (fun h b => compressBlock h (bytesToWords b))
    ⟨1779033703, 3144134277, 1013904242, 2773480762,
     1359893119, 2600822924, 528734635, 1541459225⟩
  wordBytes final.a ++ wordBytes final.b ++ wordBytes final.c ++ wordBytes final.d ++
  wordBytes final.e ++ wordBytes final.f ++ wordBytes final.g ++ wordBytes final.h

/-- HMAC-SHA256 (`hmac.new(key, msg, hashlib.sha256).digest()`), block size 64. -/
def hmacSha256 (key msg : List Nat) : List Nat :=
  let k1 := if 64 < key.length then sha256 key else key
  let k2 := k1 ++ List.replicate (64 - k1.length) 0
  sha256 ((k2.map fun b => b ^^^ 92) ++ sha256 ((k2.map fun b => b ^^^ 54) ++ msg))

/-- Lowercase hex digit character for `n < 16`. -/
def hexChar : Nat → Char
  | 0 => '0'
  | 1 => '1'
  | 2 => '2'
  | 3 => '3'
  | 4 => '4'
  | 5 => '5'
  | 6 => '6'
  | 7 => '7'
  | 8 => '8'
  | 9 => '9'
  | 10 => 'a'
  | 11 => 'b'
  | 12 => 'c'
  | 13 => 'd'
  | 14 => 'e'
  | 15 => 'f'
  | _ => '*'

/-- Two lowercase hex characters of a byte. -/
def hexByte (b : Nat) : List Char := [hexChar (b / 16 % 16), hexChar (b % 16)]

/-- Lowercase hex rendering of a byte string (`.hexdigest()`). -/
def hexdigest (l : List Nat) : List Char := (l.map hexByte).flatten

/-! ### `security.py` -/

/-- `compute_signature(timestamp, body, secret)` from `security.py`: lowercase
hex HMAC-SHA256 of `str(timestamp).encode() + b"." + body` keyed by `secret`
(46 is the byte of `'.'`). -/
def compute_signature (timestamp : Int) (body secret : List Nat) : List Char :=
  hexdigest (hmacSha256 secret (asciiBytes (intStr timestamp) ++ [46] ++ body))

/-- The `for part in parts` loop of `parse_signature_header`: threads the
current `timestamp`/`signature` values; `none` models the `ValueError` raised
by `int(part[2:])` and caught by the surrounding `try`. -/
def parseHeaderLoop :
    List (List Char) → Option Int → Option (List Char) →
    Option (Option Int × Option (List Char))
  | [], t, s => some (t, s)
  | p :: ps, t, s =>
    if hasPre ['t', '='] p then
      match pyIntOfChars (p.drop 2) with
      | none => none
      | some n => parseHeaderLoop ps (some n) s
    else if hasPre ['v', '1', '='] p then
      parseHeaderLoop ps t (some (p.drop 3))
    else
      parseHeaderLoop ps t s

/-- `parse_signature_header(signature_header)` from `security.py`: split on
`','`, scan for `t=`/`v1=` tokens, and return `(signature, timestamp)`, or
`(None, None)` when a value is missing or `int()` fails. -/
def parse_signature_header (header : List Char) :
    Option (List Char) × Option Int :=
  match parseHeaderLoop (splitOnChar ',' header) none none with
  | none => (none, none)
  | some (some t, some s) => (some s, some t)
  | some _ => (none, none)

/-- `validate_timestamp(timestamp, tolerance_seconds)` from `security.py`, with
`int(time.time())` passed in as `now`. -/
def validate_timestamp (timestamp tolerance_seconds now : Int) : Bool :=
  let age := now - timestamp
  if age < 0 then false
  else if tolerance_seconds < age then false
  else true

/-- `hmac.compare_digest` on two ASCII strings; the constant-time aspect of the
comparison has no observable value-level content, so it is plain equality. -/
def compare_digest (a b : List Char) : Bool := a == b

/-- `verify_signature(signature_header, body, secret, tolerance)` from
`security.py`, with the wall clock passed in as `now`. -/
def verify_signature (header : List Char) (body secret : List Nat)
    (tolerance_seconds now : Int) : Bool :=
  match parse_signature_header header with
  | (some provided, some ts) =>
    if validate_timestamp ts tolerance_seconds now then
      compare_digest (compute_signature ts body secret) provided
    else false
  | _ => false

/-- The header shape named by the spec (`formatHeader`) and built by the
repository's tests: `f"t={timestamp},v1={signature}"`. -/
def formatHeader (ts : Int) (sig : List Char) : List Char :=
  ['t', '='] ++ intStr ts ++ [','] ++ ['v', '1', '='] ++ sig

/-! ### JSON values and `models.py`

JSON numbers are modelled as integers (no claim exercises fractional
numbers).  Field validation is modelled from pydantic v2's lax mode, the
mode `TypeAdapter(...).validate_json` uses here: numeric strings coerce to
`int`, and datetime input is an ISO-8601 string (calendar-checked) or an
epoch number or numeric string checked against speedate's supported
range. -/

/-- A parsed JSON value. -/
inductive Json where
  | null
  | bool (b : Bool)
  | num (n : Int)
  | str (s : String)
  | arr (elems : List Json)
  | obj (fields : List (String × Json))

/-- Read exactly `k` digits, most significant first (`acc` accumulates). -/
def digitsFix : Nat → Nat → List Char → Option (Nat × List Char)
  | acc, 0, l => some (acc, l)
  | acc, k + 1, c :: cs =>
    if c.isDigit then digitsFix (acc * 10 + digitVal c) k cs else none
  | _, _ + 1, [] => none

/-- Nonempty run of decimal digits, with no underscores (pydantic-core's
string-to-number parser, unlike Python `int()`, accepts none). -/
def digitsOnlyVal (l : List Char) : Option Nat :=
  if l.isEmpty then none
  else if l.all Char.isDigit then
    some (l.foldl (fun a c => a * 10 + digitVal c) 0)
  else none

/-- Modelled from pydantic-core's lax string-to-int conversion (used for JSON
string input to an `int` field): surrounding whitespace and an optional
single sign around a plain digit run.  Underscore separators, accepted by
Python `int()`, are rejected here. -/
def pydStrInt (l : List Char) : Option Int :=
  let t := rstrip (lstrip l)
  match t with
  | [] => none
  | c :: rest =>
    if c = '+' then (digitsOnlyVal rest).map Int.ofNat
    else if c = '-' then (digitsOnlyVal rest).map fun n => -(Int.ofNat n)
    else (digitsOnlyVal t).map Int.ofNat

/-- Modelled from pydantic v2 lax validation of an `int` field on JSON input:
a JSON integer is taken as is, a JSON string goes through the lax
string-to-int conversion, and every other JSON value (including booleans,
which pydantic v2 no longer coerces to int) is invalid. -/
def intCoerce : Json → Option Int
  | Json.num n => some n
  | Json.str s => pydStrInt s.toList
  | _ => none

/-- Modelled from speedate's `from_timestamp` as used by pydantic-core for
numeric datetime input: magnitudes up to the `2 * 10^10` watershed are
seconds and accepted from 1600-01-01 on (their year then stays below
10000); larger magnitudes are milliseconds and must land between
1600-01-01 and 9999-12-31. -/
def epochOk (n : Int) : Bool :=
  if n.natAbs ≤ 20000000000 then decide (-11676096000 ≤ n)
  else decide (-11676096000000 ≤ n ∧ n ≤ 253402300799999)

/-- Gregorian leap-year rule. -/
def isLeapYear (y : Nat) : Bool :=
  (y % 4 == 0 && y % 100 != 0) || y % 400 == 0

/-- Days of a month in the proleptic Gregorian calendar. -/
def daysInMonth (y mo : Nat) : Nat :=
  if mo = 2 then (if isLeapYear y then 29 else 28)
  else if mo = 4 || mo = 6 || mo = 9 || mo = 11 then 30
  else 31

/-- `YYYY-MM-DD` date part with calendar validation (month 1–12, day within
the month's length for that year); returns the remaining characters. -/
def isoDate (l : List Char) : Option (List Char) :=
  match digitsFix 0 4 l with
  | some (y, '-' :: r2) =>
    match digitsFix 0 2 r2 with
    | some (mo, '-' :: r4) =>
      if mo < 1 || 12 < mo then none
      else
        match digitsFix 0 2 r4 with
        | some (d, r5) => if d < 1 || daysInMonth y mo < d then none else some r5
        | none => none
    | _ => none
  | _ => none

/-- Trailing timezone: empty, `Z`/`z`, or `±HH[:]MM`. -/
def isoTz : List Char → Bool
  | [] => true
  | ['Z'] => true
  | ['z'] => true
  | c :: rest =>
    (c = '+' || c = '-') &&
    (match digitsFix 0 2 rest with
     | some (h, r2) =>
       decide (h ≤ 23) &&
       (match r2 with
        | ':' :: r3 =>
          (match digitsFix 0 2 r3 with
           | some (m, []) => decide (m ≤ 59)
           | _ => false)
        | r3 =>
          (match digitsFix 0 2 r3 with
           | some (m, []) => decide (m ≤ 59)
           | _ => false))
     | none => false)

/-- Optional fractional seconds: `.` followed by at least one digit. -/
def isoFrac : List Char → Option (List Char)
  | '.' :: rest =>
    if (rest.takeWhile Char.isDigit).isEmpty then none
    else some (rest.dropWhile Char.isDigit)
  | l => some l

/-- `HH:MM[:SS[.frac]]` time part followed by an optional timezone. -/
def isoTime (l : List Char) : Bool :=
  match digitsFix 0 2 l with
  | some (h, ':' :: r2) =>
    decide (h ≤ 23) &&
    (match digitsFix 0 2 r2 with
     | some (mi, r3) =>
       decide (mi ≤ 59) &&
       (match r3 with
        | ':' :: r4 =>
          (match digitsFix 0 2 r4 with
           | some (s, r5) =>
             decide (s ≤ 59) &&
             (match isoFrac r5 with
              | some r6 => isoTz r6
              | none => false)
           | none => false)
        | _ => isoTz r3)
     | none => false)
  | _ => false

/-- Simplified ISO-8601 datetime validity: a date, optionally followed by a
`T`/`t`/space separator and a time with optional fraction and timezone. -/
def isoDatetimeOk (l : List Char) : Bool :=
  match isoDate l with
  | none => false
  | some [] => true
  | some (c :: rest) => (c = 'T' || c = 't' || c = ' ') && isoTime rest

/-- Modelled from pydantic v2 lax validation of a `datetime` field on JSON
input: a number is an epoch timestamp checked against speedate's supported
range; a string is either an ISO-8601 datetime or, failing that, a numeric
string treated as an epoch timestamp with the same range check; every other
JSON value is invalid. -/
def isDatetimeJson : Json → Bool
  | Json.num n => epochOk n
  | Json.str s =>
    match pydStrInt s.toList with
    | some n => epochOk n
    | none => isoDatetimeOk s.toList
  | _ => false

/-- First binding of `key` in a JSON object's field list. -/
def lookupField : List (String × Json) → String → Option Json
  | [], _ => none
  | (k, v) :: rest, key => if k = key then some v else lookupField rest key

/-- The declared field names of the `TailscaleEvent` pydantic model. -/
def schemaKeys : List String :=
  ["timestamp", "version", "type", "tailnet", "message", "data"]

/-- `TailscaleEvent` from `models.py`: five required fields, a `data` mapping
defaulting to empty, and (because of `extra="allow"`) the unknown fields kept
alongside. -/
structure TailscaleEvent where
  timestamp : Json
  version : Int
  type : String
  tailnet : String
  message : String
  data : List (String × Json)
  extra : List (String × Json)

/-- The fields of an object that are not declared on the model (pydantic
`extra="allow"` keeps them). -/
def extrasOf (fields : List (String × Json)) : List (String × Json) :=
  fields.filter fun p => !(schemaKeys.contains p.1)

/-- Pydantic (v2, lax mode) validation of a single `TailscaleEvent` from a
JSON value: the value must be an object; `timestamp` must be accepted by the
lax datetime validation, `version` by the lax int validation (an integer or
a numeric string), `type`/`tailnet`/`message` must be strings (lax mode does
not coerce numbers to `str`); `data`, when present, must be an object (else
it defaults to the empty mapping); unknown fields are kept, not rejected. -/
def validateEvent : Json → Option TailscaleEvent
  | Json.obj fields =>
    match lookupField fields "timestamp" with
    | none => none
    | some tsv =>
      if isDatetimeJson tsv then
        match lookupField fields "version" with
        | none => none
        | some jv =>
          match intCoerce jv with
          | none => none
          | some ver =>
            (match lookupField fields "type" with
             | some (Json.str ty) =>
               (match lookupField fields "tailnet" with
                | some (Json.str tn) =>
                  (match lookupField fields "message" with
                   | some (Json.str msg) =>
                     (match lookupField fields "data" with
                      | none => some ⟨tsv, ver, ty, tn, msg, [], extrasOf fields⟩
                      | some (Json.obj d) =>
                        some ⟨tsv, ver, ty, tn, msg, d, extrasOf fields⟩
                      | some _ => none)
                   | _ => none)
                | _ => none)
             | _ => none)
      else none
  | _ => none

/-- Elementwise validation of a JSON array of events: the whole list validates
only when every element does. -/
def validateEvents : List Json → Option (List TailscaleEvent)
  | [] => some []
  | j :: rest =>
    match validateEvent j with
    | none => none
    | some e =>
      match validateEvents rest with
      | none => none
      | some es => some (e :: es)

/-- `TypeAdapter(list[TailscaleEvent]).validate_json(body)` from `app.py`.
The stdlib JSON text parser is outside the repository, so the raw body is
modelled as the parsed JSON value (`none` for text that is not valid JSON);
the top-level value must be an array and every element must validate. -/
def decodeEvents : Option Json → Option (List TailscaleEvent)
  | none => none
  | some (Json.arr elems) => validateEvents elems
  | some _ => none

/-- `NotificationPayload` from `models.py`. -/
structure NotificationPayload where
  event_type : String
  event_message : String
  tailnet : String
  timestamp : Json
  raw_data : List (String × Json)

/-- `NotificationPayload.from_tailscale_event` from `models.py`. -/
def NotificationPayload.from_tailscale_event (event : TailscaleEvent) :
    NotificationPayload :=
  ⟨event.type, event.message, event.tailnet, event.timestamp, event.data⟩

/-! ### `app.py`: event processing and the webhook endpoint -/

/-- Result of one `await telegram_channel.send(payload)` call: returned
`True`, returned `False`, or raised an exception. -/
inductive SendResult where
  | ok
  | falseReturn
  | raised
deriving DecidableEq

/-- One iteration of the `for event in events` loop of
`process_webhook_events`: build the payload, call `send`, clear `all_success`
on a `False` return or a raised exception, and extend the trace of calls. -/
def processStep (send : NotificationPayload → SendResult)
    (st : Bool × List NotificationPayload) (event : TailscaleEvent) :
    Bool × List NotificationPayload :=
  let payload := NotificationPayload.from_tailscale_event event
  let ok :=
    match send payload with
    | SendResult.ok => st.1
    | _ => false
  (ok, st.2 ++ [payload])

/-- `process_webhook_events(events, telegram_channel)` from `app.py`, together
with the trace of payloads passed to `send`, in call order.  A missing channel
is a no-op success; a `False` return and a raised exception both clear
`all_success` without stopping the loop. -/
def process_webhook_events (events : List TailscaleEvent)
    (telegram_channel : Option (NotificationPayload → SendResult)) :
    Bool × List NotificationPayload :=
  match telegram_channel with
  | none => (true, [])
  | some send => events.foldl (processStep send) (true, [])

/-- The processor-level outcome of the spec's §4.3 (steps 4–5): `Accepted`
with the batch size, or the aggregate delivery failure
(`PartialOrFullDeliveryFailure`, surfaced as HTTP 500). -/
inductive Outcome where
  | accepted (count : Nat)
  | deliveryFailure
deriving DecidableEq

/-- Outcome of processing a decoded batch, as mapped to a response by
`webhook_tailscale` (202 with the event count on success, 500 otherwise). -/
def processOutcome (events : List TailscaleEvent)
    (channel : Option (NotificationPayload → SendResult)) : Outcome :=
  if (process_webhook_events events channel).1 then Outcome.accepted events.length
  else Outcome.deliveryFailure

/-- An HTTP response: status code, JSON object body, extra headers. -/
structure HttpResponse where
  status : Nat
  content : List (String × Json)
  headers : List (String × String)

/-- The response of `webhook_verification_error_handler` in
`exception_handlers.py`: a fixed 401 body, no extra headers. -/
def verificationErrorResponse : HttpResponse :=
  ⟨401, [("detail", Json.str "Invalid webhook signature or timestamp")], []⟩

/-- The 202 response built by `webhook_tailscale` when every event was
processed successfully. -/
def acceptedResponse (request_id : String) (count : Nat) : HttpResponse :=
  ⟨202,
   [("status", Json.str "accepted"),
    ("message", Json.str ("Received " ++ toString count ++
      " webhook event(s), processed successfully")),
    ("request_id", Json.str request_id)],
   [("X-Request-ID", request_id)]⟩

/-- The 500 response built by `webhook_tailscale` when at least one event
failed, so the upstream sender retries the batch. -/
def failedResponse (request_id : String) : HttpResponse :=
  ⟨500,
   [("status", Json.str "failed"),
    ("message", Json.str "Failed to process one or more events"),
    ("request_id", Json.str request_id)],
   [("X-Request-ID", request_id)]⟩

/-- The `webhook_tailscale` endpoint of `app.py`, as a function of the
generated `request_id`, the configured secret, the signature header, the raw
body (bytes for signing, parsed JSON value for decoding), the tolerance, the
wall clock and the channel.  Raised `WebhookVerificationError`s are returned
as the handler's 401 response.  The second component is the trace of `send`
calls. -/
def webhook_tailscale (request_id : String) (secret : List Char)
    (signature_header : List Char) (body : List Nat) (parsedBody : Option Json)
    (tolerance now : Int)
    (telegram_channel : Option (NotificationPayload → SendResult)) :
    HttpResponse × List NotificationPayload :=
  if secret.isEmpty then (verificationErrorResponse, [])
  else if !verify_signature signature_header body (asciiBytes secret) tolerance now then
    (verificationErrorResponse, [])
  else
    match decodeEvents parsedBody with
    | none => (verificationErrorResponse, [])
    | some events =>
      let result := process_webhook_events events telegram_channel
      if result.1 then (acceptedResponse request_id events.length, result.2)
      else (failedResponse request_id, result.2)

/-! ### Spec-side definitions (for refinement-style claims) -/

/-- Spec side of C5: every event of the batch delivered successfully — a
missing channel is a no-op success and the empty batch is vacuously
successful. -/
def specDeliveredAll (events : List TailscaleEvent)
    (channel : Option (NotificationPayload → SendResult)) : Bool :=
  match channel with
  | none => true
  | some send =>
    events.all fun ev =>
      send (NotificationPayload.from_tailscale_event ev) == SendResult.ok

/-- The ten decimal digit characters. -/
def decChars : List Char := ['0', '1', '2', '3', '4', '5', '6', '7', '8', '9']

theorem digitChar_mem (n : Nat) (h : n < 10) : digitChar n ∈ decChars := by
  interval_cases n <;> decide

theorem decChars_props (c : Char) (hc : c ∈ decChars) :
    c.isDigit = true ∧ c ≠ ',' ∧ c ≠ '+' ∧ c ≠ '-' ∧ c ≠ '_' ∧
      c.isWhitespace = false := by
  fin_cases hc <;> exact ⟨by decide, by decide, by decide, by decide, by decide, by decide⟩

theorem digitVal_digitChar (n : Nat) (h : n < 10) : digitVal (digitChar n) = n := by
  interval_cases n <;> decide

theorem natStr_mem_decChars (n : Nat) : ∀ c ∈ natStr n, c ∈ decChars := by
  induction n using Nat.strong_induction_on with
  | _ n ih =>
    rw [natStr]
    split
    · intro c hc
      rw [List.mem_singleton] at hc
      exact hc ▸ digitChar_mem n (by omega)
    · intro c hc
      rw [List.mem_append] at hc
      rcases hc with h1 | h2
      · exact ih (n / 10) (Nat.div_lt_self (by omega) (by omega)) c h1
      · rw [List.mem_singleton] at h2
        exact h2 ▸ digitChar_mem _ (Nat.mod_lt _ (by omega))

theorem natStr_ne_nil (n : Nat) : natStr n ≠ [] := by
  rw [natStr]; split <;> simp

theorem digitsRun_all_digits (l : List Char) :
    ∀ acc, (∀ c ∈ l, c.isDigit = true) →
      digitsRun acc l = some (l.foldl (fun a c => a * 10 + digitVal c) acc) := by
  induction l with
  | nil => intro acc _; rfl
  | cons c cs ih =>
    intro acc h
    rw [List.foldl_cons, digitsRun.eq_def]
    dsimp only
    rw [if_pos (h c (List.mem_cons_self c cs))]
    exact ih _ fun d hd => h d (List.mem_cons_of_mem c hd)

theorem parseDigitsU_all_digits (l : List Char) (hne : l ≠ [])
    (h : ∀ c ∈ l, c.isDigit = true) :
    parseDigitsU l = some (l.foldl (fun a c => a * 10 + digitVal c) 0) := by
  match l, hne with
  | c :: cs, _ =>
    simp only [parseDigitsU, List.foldl_cons]
    rw [if_pos (h c (List.mem_cons_self c cs))]
    simpa using digitsRun_all_digits cs (digitVal c)
      fun d hd => h d (List.mem_cons_of_mem c hd)

theorem natStr_foldl (n : Nat) :
    ∀ acc, (natStr n).foldl (fun a c => a * 10 + digitVal c) acc =
      acc * 10 ^ (natStr n).length + n := by
  induction n using Nat.strong_induction_on with
  | _ n ih =>
    intro acc
    rw [natStr]
    split
    · simp [digitVal_digitChar n (by omega)]
    · rw [List.foldl_append, List.length_append,
        ih (n / 10) (Nat.div_lt_self (by omega) (by omega))]
      simp [digitVal_digitChar (n % 10) (Nat.mod_lt _ (by omega)), pow_succ]
      ring_nf
      omega

theorem parseDigitsU_natStr (n : Nat) : parseDigitsU (natStr n) = some n := by
  rw [parseDigitsU_all_digits (natStr n) (natStr_ne_nil n)
    (fun c hc => (decChars_props c (natStr_mem_decChars n c hc)).1)]
  rw [natStr_foldl n 0]
  simp

theorem dropWhile_all_false {p : Char → Bool} (l : List Char)
    (h : ∀ c ∈ l, p c = false) : l.dropWhile p = l := by
  cases l with
  | nil => rfl
  | cons c cs =>
    rw [List.dropWhile_cons, if_neg]
    simp [h c (List.mem_cons_self c cs)]

theorem strip_all_not_ws (l : List Char)
    (h : ∀ c ∈ l, c.isWhitespace = false) : rstrip (lstrip l) = l := by
  rw [lstrip, dropWhile_all_false l h, rstrip, dropWhile_all_false]
  · exact List.reverse_reverse l
  · intro c hc
    exact h c (List.mem_reverse.mp hc)

theorem pyIntOfChars_natStr (n : Nat) : pyIntOfChars (natStr n) = some (n : Int) := by
  have hprops : ∀ c ∈ natStr n, c.isDigit = true ∧ c ≠ ',' ∧ c ≠ '+' ∧ c ≠ '-' ∧
      c ≠ '_' ∧ c.isWhitespace = false :=
    fun c hc => decChars_props c (natStr_mem_decChars n c hc)
  rw [pyIntOfChars, strip_all_not_ws (natStr n) fun c hc => (hprops c hc).2.2.2.2.2]
  obtain ⟨c, cs, hval⟩ := List.exists_cons_of_ne_nil (natStr_ne_nil n)
  have hc : c ∈ natStr n := by rw [hval]; exact List.mem_cons_self c cs
  rw [hval]
  simp only [pyIntBody]
  rw [if_neg ((hprops c hc).2.2.1), if_neg ((hprops c hc).2.2.2.1),
    ← hval, parseDigitsU_natStr n]
  rfl

theorem pyIntOfChars_intStr (z : Int) : pyIntOfChars (intStr z) = some z := by
  rw [intStr]
  split
  · next hneg =>
    have hprops : ∀ c ∈ natStr (-z).toNat, c.isDigit = true ∧ c ≠ ',' ∧ c ≠ '+' ∧
        c ≠ '-' ∧ c ≠ '_' ∧ c.isWhitespace = false :=
      fun c hc => decChars_props c (natStr_mem_decChars _ c hc)
    rw [pyIntOfChars, strip_all_not_ws ('-' :: natStr (-z).toNat) (by
      intro c hc
      rcases List.mem_cons.mp hc with h1 | h1
      · rw [h1]; decide
      · exact (hprops c h1).2.2.2.2.2)]
    simp only [pyIntBody]
    rw [if_neg (show ¬('-' = '+') by decide)]
    simp only [if_true]
    rw [parseDigitsU_natStr]
    have : (((-z).toNat : Nat) : Int) = -z := by omega
    simp [this]
  · next hpos =>
    rw [pyIntOfChars_natStr]
    have : ((z.toNat : Nat) : Int) = z := by omega
    rw [this]

/-! ### Lemmas: splitting and header parsing -/

theorem splitOnChar_ne_nil (sep : Char) (l : List Char) : splitOnChar sep l ≠ [] := by
  cases l with
  | nil => simp [splitOnChar]
  | cons c cs =>
    rw [splitOnChar]
    split
    · simp
    · split <;> simp

theorem splitOnChar_no_sep (sep : Char) (l : List Char)
    (h : ∀ c ∈ l, c ≠ sep) : splitOnChar sep l = [l] := by
  induction l with
  | nil => rfl
  | cons c cs ih =>
    rw [splitOnChar, if_neg (h c (List.mem_cons_self c cs)),
      ih fun d hd => h d (List.mem_cons_of_mem c hd)]

theorem splitOnChar_append_sep (sep : Char) (a b : List Char)
    (h : ∀ c ∈ a, c ≠ sep) :
    splitOnChar sep (a ++ sep :: b) = a :: splitOnChar sep b := by
  induction a with
  | nil => simp [splitOnChar]
  | cons c cs ih =>
    rw [List.cons_append, splitOnChar, if_neg (h c (List.mem_cons_self c cs)),
      ih fun d hd => h d (List.mem_cons_of_mem c hd)]

theorem intStr_ne_comma (z : Int) : ∀ c ∈ intStr z, c ≠ ',' := by
  intro c hc
  rw [intStr] at hc
  split at hc
  · rcases List.mem_cons.mp hc with h1 | h1
    · rw [h1]; decide
    · exact (decChars_props c (natStr_mem_decChars _ c h1)).2.1
  · exact (decChars_props c (natStr_mem_decChars _ c hc)).2.1

theorem hexChar_mod16_ne_comma (x : Nat) : hexChar (x % 16) ≠ ',' := by
  have h : x % 16 < 16 := Nat.mod_lt _ (by omega)
  set m := x % 16 with hm
  interval_cases m <;> decide

theorem hexdigest_ne_comma (l : List Nat) : ∀ c ∈ hexdigest l, c ≠ ',' := by
  intro c hc
  rw [hexdigest, List.mem_flatten] at hc
  obtain ⟨g, hg, hcg⟩ := hc
  rw [List.mem_map] at hg
  obtain ⟨b, _, hb⟩ := hg
  subst hb
  simp only [hexByte, List.mem_cons, List.mem_singleton] at hcg
  rcases hcg with h1 | h1 | h1
  · exact h1 ▸ hexChar_mod16_ne_comma _
  · exact h1 ▸ hexChar_mod16_ne_comma _
  · exact absurd h1 (List.not_mem_nil c)

theorem parse_formatHeader (ts : Int) (sig : List Char)
    (hsig : ∀ c ∈ sig, c ≠ ',') :
    parse_signature_header (formatHeader ts sig) = (some sig, some ts) := by
  have heq : formatHeader ts sig
      = ('t' :: '=' :: intStr ts) ++ ',' :: ('v' :: '1' :: '=' :: sig) := by
    simp [formatHeader]
  have hA : ∀ c ∈ 't' :: '=' :: intStr ts, c ≠ ',' := by
    intro c hc
    rcases List.mem_cons.mp hc with h1 | h1
    · rw [h1]; decide
    · rcases List.mem_cons.mp h1 with h2 | h2
      · rw [h2]; decide
      · exact intStr_ne_comma ts c h2
  have hB : ∀ c ∈ 'v' :: '1' :: '=' :: sig, c ≠ ',' := by
    intro c hc
    rcases List.mem_cons.mp hc with h1 | h1
    · rw [h1]; decide
    · rcases List.mem_cons.mp h1 with h2 | h2
      · rw [h2]; decide
      · rcases List.mem_cons.mp h2 with h3 | h3
        · rw [h3]; decide
        · exact hsig c h3
  have hsplit : splitOnChar ',' (formatHeader ts sig)
      = ('t' :: '=' :: intStr ts) :: [('v' :: '1' :: '=' :: sig)] := by
    rw [heq, splitOnChar_append_sep ',' _ _ hA, splitOnChar_no_sep ',' _ hB]
  have ht1 : hasPre ['t', '='] ('t' :: '=' :: intStr ts) = true := rfl
  have ht2 : hasPre ['t', '='] ('v' :: '1' :: '=' :: sig) = false := rfl
  have hv2 : hasPre ['v', '1', '='] ('v' :: '1' :: '=' :: sig) = true := rfl
  have hloop : parseHeaderLoop
      [('t' :: '=' :: intStr ts), ('v' :: '1' :: '=' :: sig)] none none
      = some (some ts, some sig) := by
    simp [parseHeaderLoop, ht1, ht2, hv2, pyIntOfChars_intStr]
  rw [parse_signature_header, hsplit, hloop]

theorem verify_roundtrip (ts T now : Int) (body secret : List Nat) :
    verify_signature (formatHeader ts (compute_signature ts body secret))
        body secret T now
      = validate_timestamp ts T now := by
  have hcomma : ∀ c ∈ compute_signature ts body secret, c ≠ ',' :=
    hexdigest_ne_comma _
  simp only [verify_signature, parse_formatHeader ts _ hcomma]
  cases hv : validate_timestamp ts T now <;> simp [hv, compare_digest]

theorem validate_timestamp_true_iff (ts T now : Int) :
    validate_timestamp ts T now = true ↔ 0 ≤ now - ts ∧ now - ts ≤ T := by
  simp only [validate_timestamp]
  split_ifs with h1 h2 <;> simp <;> omega

/-! ### Lemmas: malformed headers -/

theorem parseHeaderLoop_no_t (parts : List (List Char))
    (h : ∀ p ∈ parts, hasPre ['t', '='] p = false) :
    ∀ s, ∃ s2, parseHeaderLoop parts none s = some (none, s2) := by
  induction parts with
  | nil => intro s; exact ⟨s, rfl⟩
  | cons p ps ih =>
    intro s
    rw [parseHeaderLoop.eq_def]
    dsimp only
    rw [h p (List.mem_cons_self p ps)]
    simp only [Bool.false_eq_true, if_false]
    split
    · exact ih (fun q hq => h q (List.mem_cons_of_mem p hq)) _
    · exact ih (fun q hq => h q (List.mem_cons_of_mem p hq)) s

theorem parseHeaderLoop_no_v1 (parts : List (List Char))
    (h : ∀ p ∈ parts, hasPre ['v', '1', '='] p = false) :
    ∀ t, parseHeaderLoop parts t none = none ∨
      ∃ t2, parseHeaderLoop parts t none = some (t2, none) := by
  induction parts with
  | nil => intro t; exact Or.inr ⟨t, rfl⟩
  | cons p ps ih =>
    intro t
    rw [parseHeaderLoop.eq_def]
    dsimp only
    split
    · rcases hp : pyIntOfChars (p.drop 2) with _ | n
      · exact Or.inl rfl
      · exact ih (fun q hq => h q (List.mem_cons_of_mem p hq)) (some n)
    · rw [h p (List.mem_cons_self p ps)]
      simp only [Bool.false_eq_true, if_false]
      exact ih (fun q hq => h q (List.mem_cons_of_mem p hq)) t

theorem parseHeaderLoop_bad_t (parts : List (List Char))
    (h : ∃ p ∈ parts, hasPre ['t', '='] p = true ∧ pyIntOfChars (p.drop 2) = none) :
    ∀ t s, parseHeaderLoop parts t s = none := by
  induction parts with
  | nil => simp at h
  | cons p ps ih =>
    intro t s
    obtain ⟨q, hq, hqt, hqparse⟩ := h
    rw [parseHeaderLoop.eq_def]
    dsimp only
    rcases List.mem_cons.mp hq with rfl | hmem
    · split
      · rw [hqparse]
      · next hcond => exact absurd hqt hcond
    · split
      · rcases hp : pyIntOfChars (p.drop 2) with _ | n
        · rfl
        · exact ih ⟨q, hmem, hqt, hqparse⟩ (some n) s
      · split
        · exact ih ⟨q, hmem, hqt, hqparse⟩ t _
        · exact ih ⟨q, hmem, hqt, hqparse⟩ t s

theorem verify_of_parse_none (header : List Char) (body secret : List Nat)
    (T now : Int) (h : parse_signature_header header = (none, none)) :
    verify_signature header body secret T now = false := by
  simp only [verify_signature, h]

/-! ### Lemmas: the event-processing loop -/

theorem processStep_eq (send : NotificationPayload → SendResult)
    (st : Bool × List NotificationPayload) (ev : TailscaleEvent) :
    processStep send st ev =
      (st.1 && (send (NotificationPayload.from_tailscale_event ev) == SendResult.ok),
       st.2 ++ [NotificationPayload.from_tailscale_event ev]) := by
  cases h : send (NotificationPayload.from_tailscale_event ev) <;>
    simp [processStep, h]

theorem foldl_processStep_fst (send : NotificationPayload → SendResult)
    (events : List TailscaleEvent) :
    ∀ b tr, (events.foldl (processStep send) (b, tr)).1 =
      (b && events.all fun ev =>
        send (NotificationPayload.from_tailscale_event ev) == SendResult.ok) := by
  induction events with
  | nil => intro b tr; simp
  | cons e es ih =>
    intro b tr
    rw [List.foldl_cons, List.all_cons, processStep_eq, ih]
    simp [Bool.and_assoc]

theorem process_fst_eq_specDeliveredAll (events : List TailscaleEvent)
    (channel : Option (NotificationPayload → SendResult)) :
    (process_webhook_events events channel).1 = specDeliveredAll events channel := by
  cases channel with
  | none => rfl
  | some send =>
    simp only [process_webhook_events, specDeliveredAll]
    simpa using foldl_processStep_fst send events true []

/-! ### Lemmas: event decoding -/

theorem webhook_response_cases (rid : String) (secret header : List Char)
    (body : List Nat) (parsed : Option Json) (T now : Int)
    (ch : Option (NotificationPayload → SendResult)) :
    (webhook_tailscale rid secret header body parsed T now ch).1
        = verificationErrorResponse ∨
    (∃ n, (webhook_tailscale rid secret header body parsed T now ch).1
        = acceptedResponse rid n) ∨
    (webhook_tailscale rid secret header body parsed T now ch).1
        = failedResponse rid := by
  rw [webhook_tailscale]
  split
  · exact Or.inl rfl
  · split
    · exact Or.inl rfl
    · split
      · exact Or.inl rfl
      · dsimp only
        split
        · exact Or.inr (Or.inl ⟨_, rfl⟩)
        · exact Or.inr (Or.inr rfl)

/-! ### Claims -/

/-- C1 (counterexample): the claim "verification of a correctly signed header
succeeds whenever `|now - timestamp| <= T`" is false on the code: at
`now = 0`, `timestamp = 1`, `T = 5` the timestamp is within the absolute
window (`|now - timestamp| = 1 <= 5`), the header carries the correct
signature for the body, yet `verify_signature` returns `false`, because
`validate_timestamp` rejects every future timestamp (`age < 0`). -/
theorem c1_signature_roundtrip_counterexample :
    ((0 : Int) - 1).natAbs ≤ 5 ∧
    verify_signature (formatHeader 1 (compute_signature 1 [] [])) [] [] 5 0
      = false := by
  constructor
  · decide
  · rw [verify_roundtrip]
    decide

/-- C1 (amended): for all `(secret, timestamp, body)`, verifying the header
`t=<timestamp>,v1=<hex HMAC-SHA256 of str(timestamp) + "." + body>` against
the same body, secret and tolerance `T` returns `true` whenever
`0 <= now - timestamp <= T` (the code allows no future timestamps, so the
spec's absolute window `|now - timestamp| <= T` holds only on its
past-facing half). -/
theorem c1_signature_roundtrip (secret body : List Nat) (ts T now : Int)
    (h0 : 0 ≤ now - ts) (h1 : now - ts ≤ T) :
    verify_signature (formatHeader ts (compute_signature ts body secret))
      body secret T now = true := by
  rw [verify_roundtrip]
  exact (validate_timestamp_true_iff ts T now).mpr ⟨h0, h1⟩

/-- C1 (witness): the amended round-trip theorem instantiated at
`timestamp = now = 5`, `T = 0`, empty secret and body. -/
theorem c1_signature_roundtrip_witness :
    (0 : Int) ≤ 5 - 5 ∧ (5 : Int) - 5 ≤ 0 ∧
    verify_signature (formatHeader 5 (compute_signature 5 [] [])) [] [] 0 5
      = true :=
  ⟨by decide, by decide, c1_signature_roundtrip [] [] 5 0 5 (by decide) (by decide)⟩

/-- C3: the freshness check is an inclusive-accept window with no future
allowance: for every tolerance `T >= 0`, a correctly signed header with
`timestamp = now - (T+1)` is rejected, `timestamp = now - T` is accepted,
and `timestamp = now + 1` is rejected. -/
theorem c3_freshness_window (secret body : List Nat) (T now : Int)
    (hT : 0 ≤ T) :
    verify_signature
        (formatHeader (now - (T + 1))
          (compute_signature (now - (T + 1)) body secret)) body secret T now
      = false ∧
    verify_signature
        (formatHeader (now - T) (compute_signature (now - T) body secret))
        body secret T now
      = true ∧
    verify_signature
        (formatHeader (now + 1) (compute_signature (now + 1) body secret))
        body secret T now
      = false := by
  refine ⟨?_, ?_, ?_⟩ <;> rw [verify_roundtrip]
  · cases hb : validate_timestamp (now - (T + 1)) T now
    · rfl
    · exact absurd ((validate_timestamp_true_iff _ _ _).mp hb) (by omega)
  · exact (validate_timestamp_true_iff _ _ _).mpr (by omega)
  · cases hb : validate_timestamp (now + 1) T now
    · rfl
    · exact absurd ((validate_timestamp_true_iff _ _ _).mp hb) (by omega)

/-- C3 (witness): the freshness window theorem instantiated at `T = 0`,
`now = 100`, empty secret and body. -/
theorem c3_freshness_window_witness :
    (0 : Int) ≤ 0 ∧
    (verify_signature
        (formatHeader (100 - (0 + 1))
          (compute_signature (100 - (0 + 1)) [] [])) [] [] 0 100
      = false ∧
    verify_signature
        (formatHeader (100 - 0) (compute_signature (100 - 0) [] []))
        [] [] 0 100
      = true ∧
    verify_signature
        (formatHeader (100 + 1) (compute_signature (100 + 1) [] []))
        [] [] 0 100
      = false) :=
  ⟨by decide, c3_freshness_window [] [] 0 100 (by decide)⟩

/-- C6: a header with no `t=` token, or no `v1=` token, or a `t=` token whose
value `int()` cannot parse (which covers headers with no recognizable tokens
at all), makes parsing return `(None, None)` and verification return `false`;
the embedding is a total function, so no exception reaches the caller. -/
theorem c6_malformed_header_rejected (header : List Char)
    (body secret : List Nat) (T now : Int)
    (h : (∀ p ∈ splitOnChar ',' header, hasPre ['t', '='] p = false) ∨
         (∀ p ∈ splitOnChar ',' header, hasPre ['v', '1', '='] p = false) ∨
         (∃ p ∈ splitOnChar ',' header,
            hasPre ['t', '='] p = true ∧ pyIntOfChars (p.drop 2) = none)) :
    parse_signature_header header = (none, none) ∧
    verify_signature header body secret T now = false := by
  have hparse : parse_signature_header header = (none, none) := by
    rcases h with h | h | h
    · obtain ⟨s2, hs⟩ := parseHeaderLoop_no_t _ h none
      rw [parse_signature_header, hs]
    · rcases parseHeaderLoop_no_v1 _ h none with hs | ⟨t2, hs⟩
      · rw [parse_signature_header, hs]
      · rcases t2 with _ | tval <;> rw [parse_signature_header, hs]
    · rw [parse_signature_header, parseHeaderLoop_bad_t _ h none none]
  exact ⟨hparse, verify_of_parse_none header body secret T now hparse⟩

/-- C6 (witness): the malformed-header theorem applied to the header
`v1=abc`, which has no `t=` token. -/
theorem c6_malformed_header_rejected_witness :
    (∀ p ∈ splitOnChar ',' "v1=abc".toList, hasPre ['t', '='] p = false) ∧
    (parse_signature_header "v1=abc".toList = (none, none) ∧
     verify_signature "v1=abc".toList [] [] 300 0 = false) :=
  ⟨by decide,
   c6_malformed_header_rejected "v1=abc".toList [] [] 300 0 (Or.inl (by decide))⟩

/-- C9: if any comma-separated token starts with `t=` but its remainder is
not an integer, the `int()` call raises, the whole parse returns
`(None, None)` and verification returns `false` — even when other tokens of
the same header carry a valid `t=` integer and a `v1=` signature. -/
theorem c9_bad_t_token_aborts_parse (header : List Char)
    (body secret : List Nat) (T now : Int)
    (h : ∃ p ∈ splitOnChar ',' header,
        hasPre ['t', '='] p = true ∧ pyIntOfChars (p.drop 2) = none) :
    parse_signature_header header = (none, none) ∧
    verify_signature header body secret T now = false := by
  have hparse : parse_signature_header header = (none, none) := by
    rw [parse_signature_header, parseHeaderLoop_bad_t _ h none none]
  exact ⟨hparse, verify_of_parse_none header body secret T now hparse⟩

/-- C9 (witness): the abort theorem applied to `t=5,v1=aa,t=x`, whose final
token has an unparseable `t=` value although the header also carries the
valid `t=5` and a `v1=` signature. -/
theorem c9_bad_t_token_aborts_parse_witness :
    (∃ p ∈ splitOnChar ',' "t=5,v1=aa,t=x".toList,
        hasPre ['t', '='] p = true ∧ pyIntOfChars (p.drop 2) = none) ∧
    (parse_signature_header "t=5,v1=aa,t=x".toList = (none, none) ∧
     verify_signature "t=5,v1=aa,t=x".toList [] [] 300 0 = false) :=
  ⟨by decide,
   c9_bad_t_token_aborts_parse "t=5,v1=aa,t=x".toList [] [] 300 0 (by decide)⟩

/-- C2: for a batch `[A, B, C]` where `send` fails only on `B` — whether by
returning `False` or by raising, both being any result other than a `True`
return — the processor calls `send` exactly three times, in order
`A, B, C`, and reports an aggregate failure; the failure on `B` does not
abort the loop. -/
theorem c2_batch_isolation (A B C : TailscaleEvent)
    (send : NotificationPayload → SendResult)
    (hA : send (NotificationPayload.from_tailscale_event A) = SendResult.ok)
    (hB : send (NotificationPayload.from_tailscale_event B) ≠ SendResult.ok)
    (hC : send (NotificationPayload.from_tailscale_event C) = SendResult.ok) :
    process_webhook_events [A, B, C] (some send) =
      (false,
       [NotificationPayload.from_tailscale_event A,
        NotificationPayload.from_tailscale_event B,
        NotificationPayload.from_tailscale_event C]) := by
  have hBfalse :
      (send (NotificationPayload.from_tailscale_event B) == SendResult.ok)
        = false := by
    rcases hb : send (NotificationPayload.from_tailscale_event B) with _ | _ | _
    · exact absurd hb hB
    · rfl
    · rfl
  simp [process_webhook_events, processStep_eq, hA, hC, hBfalse]

/-- C2 (witness): the batch-isolation theorem applied to three concrete
events and a channel that returns `False` exactly on the payload whose type
is `"B"`. -/
theorem c2_batch_isolation_witness :
    process_webhook_events
      [⟨Json.num 0, 1, "A", "tn", "m", [], []⟩,
       ⟨Json.num 0, 1, "B", "tn", "m", [], []⟩,
       ⟨Json.num 0, 1, "C", "tn", "m", [], []⟩]
      (some fun p =>
        if p.event_type = "B" then SendResult.falseReturn else SendResult.ok) =
      (false,
       [NotificationPayload.from_tailscale_event ⟨Json.num 0, 1, "A", "tn", "m", [], []⟩,
        NotificationPayload.from_tailscale_event ⟨Json.num 0, 1, "B", "tn", "m", [], []⟩,
        NotificationPayload.from_tailscale_event ⟨Json.num 0, 1, "C", "tn", "m", [], []⟩]) :=
  c2_batch_isolation _ _ _ _ (by decide) (by decide) (by decide)

/-- C5: the processor outcome is `Accepted(count)` with the batch size
exactly when every event of the batch delivered successfully — an empty
batch vacuously so, and a missing channel as a no-op success — and is the
aggregate delivery failure exactly otherwise. -/
theorem c5_accepted_iff_all_delivered (events : List TailscaleEvent)
    (channel : Option (NotificationPayload → SendResult)) :
    (processOutcome events channel = Outcome.accepted events.length ↔
      specDeliveredAll events channel = true) ∧
    (processOutcome events channel = Outcome.deliveryFailure ↔
      specDeliveredAll events channel = false) := by
  rw [processOutcome, process_fst_eq_specDeliveredAll]
  cases h : specDeliveredAll events channel <;> simp

/-- C4: with an empty configured secret the endpoint returns the handler's
fixed 401 response with an empty delivery trace, for every header, body,
clock and channel — so before any verification, decoding or delivery — and
that response is identical to the one returned for a bad signature. -/
theorem c4_unconfigured_secret_indistinguishable :
    (∀ (rid : String) (header : List Char) (body : List Nat)
        (parsed : Option Json) (T now : Int)
        (ch : Option (NotificationPayload → SendResult)),
      webhook_tailscale rid [] header body parsed T now ch
        = (verificationErrorResponse, [])) ∧
    (∀ (rid : String) (secret header : List Char) (body : List Nat)
        (parsed : Option Json) (T now : Int)
        (ch : Option (NotificationPayload → SendResult)),
      verify_signature header body (asciiBytes secret) T now = false →
      webhook_tailscale rid secret header body parsed T now ch
        = (verificationErrorResponse, [])) := by
  constructor
  · intro rid header body parsed T now ch
    rfl
  · intro rid secret header body parsed T now ch hv
    cases hsec : secret.isEmpty <;> simp [webhook_tailscale, hsec, hv]

/-- C4 (witness): the bad-signature half applied to the one-character secret
`s` and the unparseable header `x`, giving the same response as the
empty-secret half at the same header. -/
theorem c4_unconfigured_secret_indistinguishable_witness :
    verify_signature ['x'] [] (asciiBytes ['s']) 300 0 = false ∧
    webhook_tailscale "r" ['s'] ['x'] [] none 300 0 none
      = (verificationErrorResponse, []) :=
  ⟨by decide,
   c4_unconfigured_secret_indistinguishable.2 "r" ['s'] ['x'] [] none 300 0
     none (by decide)⟩

/-- C8 (counterexample): the claim "every webhook response carries a
request identifier in the body and an `X-Request-ID` header" is false on the
code: the 401 verification-failure response produced for an empty configured
secret has no headers at all and no `request_id` member in its body. -/
theorem c8_request_id_counterexample :
    (webhook_tailscale "r0" [] ['x'] [] none 300 0 none).1.headers = [] ∧
    lookupField (webhook_tailscale "r0" [] ['x'] [] none 300 0 none).1.content
        "request_id" = none :=
  ⟨rfl, rfl⟩

/-- C8 (amended): the 202 and 500 responses built by the endpoint itself
carry the generated request identifier in the body and in an `X-Request-ID`
header, but the 401 verification/decode-failure responses, which come from
the exception handler, carry neither. -/
theorem c8_request_id_only_on_processor_responses
    (rid : String) (secret header : List Char) (body : List Nat)
    (parsed : Option Json) (T now : Int)
    (ch : Option (NotificationPayload → SendResult)) :
    ((webhook_tailscale rid secret header body parsed T now ch).1.status = 202 ∨
     (webhook_tailscale rid secret header body parsed T now ch).1.status = 500 →
      (webhook_tailscale rid secret header body parsed T now ch).1.headers
          = [("X-Request-ID", rid)] ∧
      lookupField
          (webhook_tailscale rid secret header body parsed T now ch).1.content
          "request_id" = some (Json.str rid)) ∧
    ((webhook_tailscale rid secret header body parsed T now ch).1.status = 401 →
      (webhook_tailscale rid secret header body parsed T now ch).1.headers = [] ∧
      lookupField
          (webhook_tailscale rid secret header body parsed T now ch).1.content
          "request_id" = none) := by
  rcases webhook_response_cases rid secret header body parsed T now ch with
    h | ⟨n, h⟩ | h <;> rw [h] <;> constructor
  · intro hst
    rcases hst with h2 | h2 <;> simp [verificationErrorResponse] at h2
  · intro _
    exact ⟨rfl, rfl⟩
  · intro _
    exact ⟨rfl, rfl⟩
  · intro hst
    simp [acceptedResponse] at hst
  · intro _
    exact ⟨rfl, rfl⟩
  · intro hst
    simp [failedResponse] at hst

/-- C8 (witness): the characterization applied to the 401 response produced
for an empty secret. -/
theorem c8_request_id_only_on_processor_responses_witness :
    (webhook_tailscale "r0" [] ['y'] [] none 300 0 none).1.status = 401 ∧
    ((webhook_tailscale "r0" [] ['y'] [] none 300 0 none).1.headers = [] ∧
     lookupField (webhook_tailscale "r0" [] ['y'] [] none 300 0 none).1.content
        "request_id" = none) :=
  ⟨rfl,
   (c8_request_id_only_on_processor_responses "r0" [] ['y'] [] none 300 0
     none).2 rfl⟩

